import Mathlib

set_option maxHeartbeats 1000000
set_option maxRecDepth 100000
set_option linter.unusedVariables false
set_option linter.unreachableTactic false
set_option linter.unusedTactic false

/-!
Shallow embedding of crates/ra_hir/src/source_binder.rs.

The binder maps source syntax trees to hir-level IDs.  External
collaborators (the semantic database, the syntax trees, the macro-aware
ancestor traversal) are modelled as explicit data: a syntax node carries
its in-file parent chain, a macro-produced pseudo-file carries its call
site, and HirDatabase is a record of the query functions the binder uses.
The binder's mutable children-index cache is threaded explicitly.
-/

namespace SourceBinderSpec

/-- Syntactic kinds the source binder inspects (ra_syntax AST kinds that
occur in source_binder.rs); every other kind collapses to other. -/
inductive SyntaxKind where
  | traitDef
  | implBlock
  | fnDef
  | staticDef
  | constDef
  | enumDef
  | structDef
  | unionDef
  | module
  | typeAliasDef
  | bindPat
  | typeParam
  | macroCall
  | other
deriving DecidableEq, Repr

/-- A concrete syntax node: identity, kind, optional declared name (the
NameOwner::name of the node, when any), and the lexical parent chain
inside its (pseudo-)file. -/
inductive SyntaxNode where
  | root (id : Nat) (kind : SyntaxKind) (name : Option String)
  | child (id : Nat) (kind : SyntaxKind) (name : Option String) (parent : SyntaxNode)
deriving DecidableEq, Repr

def SyntaxNode.kind : SyntaxNode → SyntaxKind
  | .root _ k _ => k
  | .child _ k _ _ => k

def SyntaxNode.name : SyntaxNode → Option String
  | .root _ _ n => n
  | .child _ _ n _ => n

def SyntaxNode.parent : SyntaxNode → Option SyntaxNode
  | .root _ _ _ => none
  | .child _ _ _ p => some p

/-- Length of the in-file parent chain. -/
def SyntaxNode.depth : SyntaxNode → Nat
  | .root _ _ _ => 0
  | .child _ _ _ p => p.depth + 1

/-- Plain lexical ancestors within one file, innermost first, the node
itself included (ra_syntax SyntaxNode::ancestors). -/
def SyntaxNode.ancestors : SyntaxNode → List SyntaxNode
  | .root i k n => [.root i k n]
  | .child i k n p => .child i k n p :: p.ancestors

/-- A file identity: either a real file, or a pseudo-file produced by a
macro expansion, which records the macro call site (file and node) in the
originating file (hir_expand HirFileId). -/
inductive HirFileId where
  | file (f : Nat)
  | macroFile (callFile : HirFileId) (callNode : SyntaxNode)
deriving DecidableEq, Repr

/-- The real file a (possibly macro-produced) file ultimately originates
from (HirFileId::original_file). -/
def HirFileId.original_file : HirFileId → Nat
  | .file f => f
  | .macroFile cf _ => cf.original_file

/-- Combined size of the chain of macro call sites of a file, used as a
termination measure for walks that cross expansion boundaries. -/
def HirFileId.weight : HirFileId → Nat
  | .file _ => 0
  | .macroFile cf cn => cf.weight + cn.depth + 1

/-- A value paired with the (pseudo-)file it lives in (hir_expand InFile). -/
structure InFile (α : Type) where
  fileId : HirFileId
  value : α
deriving DecidableEq, Repr

/-- Termination measure of a node position: macro-file weight plus in-file
depth; every step of the macro-aware ancestor walk strictly decreases it. -/
def posMeasure (src : InFile SyntaxNode) : Nat :=
  src.fileId.weight + src.value.depth

/-- One step of the macro-aware ancestor walk: the in-file parent when
there is one, otherwise the macro call-site node of the current
pseudo-file (the successor function of ancestors_with_macros). -/
def nextWithMacros (src : InFile SyntaxNode) : Option (InFile SyntaxNode) :=
  match src.value.parent with
  | some p => some ⟨src.fileId, p⟩
  | none =>
    match src.fileId with
    | .macroFile cf cn => some ⟨cf, cn⟩
    | .file _ => none

theorem nextWithMacros_lt (src p : InFile SyntaxNode)
    (h : nextWithMacros src = some p) : posMeasure p < posMeasure src := by
  rcases src with ⟨fid, v⟩
  cases v with
  | child i k n par =>
    simp only [nextWithMacros, SyntaxNode.parent] at h
    cases h
    simp [posMeasure, SyntaxNode.depth]
  | root i k n =>
    cases fid with
    | file f =>
      simp [nextWithMacros, SyntaxNode.parent] at h
    | macroFile cf cn =>
      simp only [nextWithMacros, SyntaxNode.parent] at h
      cases h
      simp [posMeasure, SyntaxNode.depth, HirFileId.weight]

/-- Lexical ancestors of a position, innermost first, the position itself
included, transparently continuing into the macro call site when the walk
reaches the root of a macro-produced pseudo-file
(InFile::ancestors_with_macros). -/
def ancestors_with_macros (src : InFile SyntaxNode) : List (InFile SyntaxNode) :=
  src ::
    (match h : nextWithMacros src with
     | some p => ancestors_with_macros p
     | none => [])
termination_by posMeasure src
decreasing_by exact nextWithMacros_lt _ _ h

theorem mem_ancestors_le :
    ∀ (n : Nat) (src x : InFile SyntaxNode), posMeasure src ≤ n →
      x ∈ ancestors_with_macros src → posMeasure x ≤ posMeasure src := by
  intro n
  induction n with
  | zero =>
    intro src x hle hx
    rw [ancestors_with_macros] at hx
    rcases hnext : nextWithMacros src with _ | p
    · rw [hnext] at hx
      simp at hx
      subst hx
      exact Nat.le_refl _
    · exact absurd (Nat.lt_of_lt_of_le (nextWithMacros_lt _ _ hnext) hle)
        (Nat.not_lt_zero _)
  | succ n ih =>
    intro src x hle hx
    rw [ancestors_with_macros] at hx
    rcases hnext : nextWithMacros src with _ | p
    · rw [hnext] at hx
      simp at hx
      subst hx
      exact Nat.le_refl _
    · rw [hnext] at hx
      rcases List.mem_cons.mp hx with h | h
      · subst h; exact Nat.le_refl _
      · have hplt := nextWithMacros_lt _ _ hnext
        have := ih p x (by omega) h
        omega

theorem mem_ancestors_tail_lt (src x : InFile SyntaxNode)
    (hx : x ∈ (ancestors_with_macros src).drop 1) :
    posMeasure x < posMeasure src := by
  rw [ancestors_with_macros] at hx
  rcases hnext : nextWithMacros src with _ | p
  · rw [hnext] at hx; simp at hx
  · rw [hnext] at hx
    simp only [List.drop_succ_cons, List.drop_zero] at hx
    have hplt := nextWithMacros_lt _ _ hnext
    have := mem_ancestors_le (posMeasure p) p x (Nat.le_refl _) hx
    omega

/-! ### Semantic IDs (hir_def) -/

abbrev TraitId := Nat
abbrev ImplId := Nat
abbrev EnumId := Nat
abbrev StructId := Nat
abbrev UnionId := Nat
abbrev FunctionId := Nat
abbrev StaticId := Nat
abbrev ConstId := Nat
abbrev TypeAliasId := Nat
abbrev EnumVariantId := Nat
abbrev StructFieldId := Nat
abbrev TypeParamId := Nat
abbrev PatId := Nat
abbrev CrateId := Nat
abbrev FileId := Nat

/-- hir_def ModuleId: a crate together with a crate-local module id. -/
structure ModuleId where
  krate : CrateId
  local_id : Nat
deriving DecidableEq, Repr

/-- hir_def DefWithBodyId: the definitions that own a body. -/
inductive DefWithBodyId where
  | functionId (id : FunctionId)
  | staticId (id : StaticId)
  | constId (id : ConstId)
deriving DecidableEq, Repr

/-- hir_def VariantId: a definition that owns record fields. -/
inductive VariantId where
  | enumVariantId (id : EnumVariantId)
  | structId (id : StructId)
  | unionId (id : UnionId)
deriving DecidableEq, Repr

/-- hir_def GenericDefId (the variants source_binder.rs converts into). -/
inductive GenericDefId where
  | functionId (id : FunctionId)
  | structId (id : StructId)
  | enumId (id : EnumId)
  | traitId (id : TraitId)
  | typeAliasId (id : TypeAliasId)
  | implId (id : ImplId)
deriving DecidableEq, Repr

/-- The ChildContainer enum of source_binder.rs: scopes that can own child
definitions reachable from syntax. -/
inductive ChildContainer where
  | defWithBodyId (id : DefWithBodyId)
  | moduleId (id : ModuleId)
  | traitId (id : TraitId)
  | implId (id : ImplId)
  | enumId (id : EnumId)
  | variantId (id : VariantId)
  | genericDefId (id : GenericDefId)
deriving DecidableEq, Repr

/-- The key space of the dynamic children index (hir_def keys). -/
inductive ChildKind where
  | struct
  | union
  | enum
  | trait
  | function
  | static
  | const
  | typeAlias
  | impl
  | recordField
  | enumVariant
  | typeParam
deriving DecidableEq, Repr

/-- First-match association-list lookup. -/
def assocLookup {α β : Type} [DecidableEq α] : List (α × β) → α → Option β
  | [], _ => none
  | (k, v) :: rest, a => if k = a then some v else assocLookup rest a

/-- hir_def DynMap as used by the binder: a children index keyed first by
child kind, then by the child's exact source location. -/
structure DynMap where
  entries : List ((ChildKind × InFile SyntaxNode) × Nat)
deriving DecidableEq, Repr

/-- Indexing dyn_map[KEY].get(src). -/
def DynMap.get (m : DynMap) (key : ChildKind) (src : InFile SyntaxNode) : Option Nat :=
  assocLookup m.entries (key, src)

/-- Data of one module inside a crate def map; the binder only reads the
externally maintained child-module table (name to local module id). -/
structure ModuleData where
  children : List (String × Nat)

/-- The crate-wide definition index (hir_def CrateDefMap), as consumed by
the binder: modules_for_file and per-module data. -/
structure CrateDefMap where
  modules_for_file : FileId → List Nat
  modules : Nat → ModuleData

/-- A name-resolution context (hir_def Resolver), opaque to the binder
apart from Resolver::default(); the database derives one per container. -/
structure Resolver where
  scopes : List Nat
deriving DecidableEq, Repr

def Resolver.default : Resolver := ⟨[]⟩

/-- The body of a body-owning definition; the binder never inspects it. -/
abbrev Body := Unit

/-- The body-to-source map: records, per pattern location, the pattern id
body construction assigned (hir_def BodySourceMap, the node_pat part). -/
structure BodySourceMap where
  pat_entries : List (InFile SyntaxNode × PatId)

/-- BodySourceMap::node_pat. -/
def BodySourceMap.node_pat (m : BodySourceMap) (src : InFile SyntaxNode) : Option PatId :=
  assocLookup m.pat_entries src

/-- crate::Module wrapper. -/
structure Module where
  id : ModuleId
deriving DecidableEq, Repr

/-- crate::Local: a local binding, identified by its owning body-owning
definition and its pattern id in that body's source map. -/
structure Local where
  parent : DefWithBodyId
  pat_id : PatId
deriving DecidableEq, Repr

/-- crate::TypeParam. -/
structure TypeParam where
  id : TypeParamId
deriving DecidableEq, Repr

/-- hir_expand MacroDefKind. -/
inductive MacroDefKind where
  | declarative
  | builtIn
  | builtInDerive
deriving DecidableEq, Repr

/-- hir_expand AstId: a file plus the stable per-file structural id the
AST id map assigns to a node in it. -/
structure AstId where
  file_id : HirFileId
  value : Nat
deriving DecidableEq, Repr

/-- hir_expand MacroDefId. -/
structure MacroDefId where
  krate : Option CrateId
  ast_id : Option AstId
  kind : MacroDefKind
deriving DecidableEq, Repr

/-- The semantic database (HirDatabase), restricted to the read-only
queries source_binder.rs performs.  The child_by_source fields model the
per-id ChildBySource trait implementations; body_with_source_map,
ast_id_map, and the per-container resolver derivations are the memoized
database queries of the same names. -/
structure HirDatabase where
  relevant_crates : FileId → List CrateId
  crate_def_map : CrateId → CrateDefMap
  def_with_body_child_by_source : DefWithBodyId → DynMap
  module_child_by_source : ModuleId → DynMap
  trait_child_by_source : TraitId → DynMap
  impl_child_by_source : ImplId → DynMap
  enum_child_by_source : EnumId → DynMap
  variant_child_by_source : VariantId → DynMap
  generic_def_child_by_source : GenericDefId → DynMap
  body_with_source_map : DefWithBodyId → Body × BodySourceMap
  ast_id_map : HirFileId → SyntaxNode → Nat
  trait_resolver : TraitId → Resolver
  impl_resolver : ImplId → Resolver
  module_resolver : ModuleId → Resolver
  enum_resolver : EnumId → Resolver
  variant_resolver : VariantId → Resolver
  generic_def_resolver : GenericDefId → Resolver

/-- The binder session's children-index cache (the child_by_source_cache
field of SourceBinder), threaded explicitly through every operation. -/
abbrev Cache := List (ChildContainer × DynMap)

/-- Lookup in the session cache. -/
def cacheFind : Cache → ChildContainer → Option DynMap
  | [], _ => none
  | (k, m) :: rest, c => if k = c then some m else cacheFind rest c

/-- The external children enumeration, dispatched per container variant
exactly as the or_insert_with closures of source_binder.rs lines 128-136
and 218-226 do. -/
def child_by_source_build (db : HirDatabase) : ChildContainer → DynMap
  | .defWithBodyId it => db.def_with_body_child_by_source it
  | .moduleId it => db.module_child_by_source it
  | .traitId it => db.trait_child_by_source it
  | .implId it => db.impl_child_by_source it
  | .enumId it => db.enum_child_by_source it
  | .variantId it => db.variant_child_by_source it
  | .genericDefId it => db.generic_def_child_by_source it

/-- SourceBinder::child_by_source (lines 126-137): return the cached
children index for a container, building and inserting it on first use.
The boolean records whether the external enumeration ran (whether the
or_insert_with closure was executed), instrumenting the call count. -/
def child_by_source (db : HirDatabase) (cache : Cache) (container : ChildContainer) :
    DynMap × Cache × Bool :=
  match cacheFind cache container with
  | some m => (m, cache, false)
  | none =>
    (child_by_source_build db container,
     (container, child_by_source_build db container) :: cache, true)

/-- SourceBinder::to_module_def (lines 62-70): resolve a file to its root
module via the first relevant crate whose def map lists the file. -/
def to_module_def (db : HirDatabase) (file : FileId) : Option Module :=
  ((db.relevant_crates file).findSome? (fun crate_id =>
    match ((db.crate_def_map crate_id).modules_for_file file).head? with
    | some local_id => some (crate_id, local_id)
    | none => none)).map
    (fun p => ⟨⟨p.1, p.2⟩⟩)

/-- The fixed list of container-defining syntactic kinds tested by the
match_ast in find_container (lines 78-118). -/
def isContainerKind : SyntaxKind → Bool
  | .traitDef => true
  | .implBlock => true
  | .fnDef => true
  | .staticDef => true
  | .constDef => true
  | .enumDef => true
  | .structDef => true
  | .unionDef => true
  | .module => true
  | _ => false

/-- The nearest strict ancestor (macro-aware walk, node itself skipped)
that is a module declaration, together with its file: the
parent_declaration computation of ast::Module::to_id (lines 332-341). -/
def firstModuleDecl (src : InFile SyntaxNode) : Option (InFile SyntaxNode) :=
  ((ancestors_with_macros src).drop 1).find?
    (fun n => n.value.kind = SyntaxKind.module)

theorem firstModuleDecl_lt (src pd : InFile SyntaxNode)
    (h : firstModuleDecl src = some pd) : posMeasure pd < posMeasure src := by
  have hm := List.mem_of_find?_eq_some h
  exact mem_ancestors_tail_lt _ _ hm

/-- The name lookup finishing ast::Module::to_id (lines 351-354): read the
declaration's own name and look it up by exact equality in the parent
module's externally maintained child-module table. -/
def module_child_lookup (db : HirDatabase) (parent_module : ModuleId)
    (src : InFile SyntaxNode) : Option ModuleId :=
  match src.value.name with
  | none => none
  | some child_name =>
    match assocLookup
        ((db.crate_def_map parent_module.krate).modules parent_module.local_id).children
        child_name with
    | none => none
    | some child_id => some ⟨parent_module.krate, child_id⟩

mutual

/-- SourceBinder::find_container (lines 76-124): walk the macro-aware
ancestors of the node, the node itself excluded; resolve the first
container-defining ancestor (a failing resolution aborts the search, as
the question-mark operator returns from the whole function); fall back to
the root module of the node's original file. -/
def find_container (db : HirDatabase) (src : InFile SyntaxNode) (cache : Cache) :
    Option ChildContainer × Cache :=
  match h : nextWithMacros src with
  | some p => find_container_loop db src.fileId.original_file p cache
  | none =>
    ((to_module_def db src.fileId.original_file).map
      (fun m => ChildContainer.moduleId m.id), cache)
termination_by 4 * posMeasure src
decreasing_by
  all_goals first
    | (have hlt := nextWithMacros_lt _ _ h; omega)
    | (have hlt := firstModuleDecl_lt _ _ h; omega)
    | omega

/-- The for-loop of find_container over the remaining ancestors; orig is
the original file of the node the search started from (line 122). -/
def find_container_loop (db : HirDatabase) (orig : FileId) (cur : InFile SyntaxNode)
    (cache : Cache) : Option ChildContainer × Cache :=
  if isContainerKind cur.value.kind then
    resolve_container db cur cache
  else
    match h : nextWithMacros cur with
    | some p => find_container_loop db orig p cache
    | none =>
      ((to_module_def db orig).map (fun m => ChildContainer.moduleId m.id), cache)
termination_by 4 * posMeasure cur + 3
decreasing_by
  all_goals first
    | (have hlt := nextWithMacros_lt _ _ h; omega)
    | (have hlt := firstModuleDecl_lt _ _ h; omega)
    | omega

/-- One arm of the match_ast of find_container (lines 78-118): resolve a
container-defining node to its semantic id and wrap it in the matching
ChildContainer facet; a failed to_id makes the whole search fail. -/
def resolve_container (db : HirDatabase) (cur : InFile SyntaxNode) (cache : Cache) :
    Option ChildContainer × Cache :=
  match cur.value.kind with
  | SyntaxKind.traitDef =>
    match to_id_by_key db ChildKind.trait cur cache with
    | (some it, c) => (some (ChildContainer.traitId it), c)
    | (none, c) => (none, c)
  | SyntaxKind.implBlock =>
    match to_id_by_key db ChildKind.impl cur cache with
    | (some it, c) => (some (ChildContainer.implId it), c)
    | (none, c) => (none, c)
  | SyntaxKind.fnDef =>
    match to_id_by_key db ChildKind.function cur cache with
    | (some it, c) => (some (ChildContainer.defWithBodyId (DefWithBodyId.functionId it)), c)
    | (none, c) => (none, c)
  | SyntaxKind.staticDef =>
    match to_id_by_key db ChildKind.static cur cache with
    | (some it, c) => (some (ChildContainer.defWithBodyId (DefWithBodyId.staticId it)), c)
    | (none, c) => (none, c)
  | SyntaxKind.constDef =>
    match to_id_by_key db ChildKind.const cur cache with
    | (some it, c) => (some (ChildContainer.defWithBodyId (DefWithBodyId.constId it)), c)
    | (none, c) => (none, c)
  | SyntaxKind.enumDef =>
    match to_id_by_key db ChildKind.enum cur cache with
    | (some it, c) => (some (ChildContainer.enumId it), c)
    | (none, c) => (none, c)
  | SyntaxKind.structDef =>
    match to_id_by_key db ChildKind.struct cur cache with
    | (some it, c) => (some (ChildContainer.variantId (VariantId.structId it)), c)
    | (none, c) => (none, c)
  | SyntaxKind.unionDef =>
    match to_id_by_key db ChildKind.union cur cache with
    | (some it, c) => (some (ChildContainer.variantId (VariantId.unionId it)), c)
    | (none, c) => (none, c)
  | SyntaxKind.module =>
    match to_id_module db cur cache with
    | (some it, c) => (some (ChildContainer.moduleId it), c)
    | (none, c) => (none, c)
  | _ => (none, cache)
termination_by 4 * posMeasure cur + 2
decreasing_by
  all_goals first
    | (have hlt := nextWithMacros_lt _ _ h; omega)
    | (have hlt := firstModuleDecl_lt _ _ h; omega)
    | omega

/-- The blanket impl ToId for T with a ToIdByKey instance (lines 209-228):
resolve the node's container, obtain that container's children index
through the session cache, and index it by the node's key and location. -/
def to_id_by_key (db : HirDatabase) (key : ChildKind) (src : InFile SyntaxNode)
    (cache : Cache) : Option Nat × Cache :=
  match find_container db src cache with
  | (none, c) => (none, c)
  | (some container, c) =>
    match child_by_source db c container with
    | (dyn_map, c2, _) => (dyn_map.get key src, c2)
termination_by 4 * posMeasure src + 1
decreasing_by
  all_goals first
    | (have hlt := nextWithMacros_lt _ _ h; omega)
    | (have hlt := firstModuleDecl_lt _ _ h; omega)
    | omega

/-- impl ToId for ast::Module (lines 323-356): resolve the nearest module
declaration strictly above the node (macro-aware) to the parent module,
falling back to the root module of the original file, then look the
declaration's name up in the parent's child-module table. -/
def to_id_module (db : HirDatabase) (src : InFile SyntaxNode) (cache : Cache) :
    Option ModuleId × Cache :=
  match h : firstModuleDecl src with
  | some parent_declaration =>
    match to_id_module db parent_declaration cache with
    | (none, c) => (none, c)
    | (some parent_module, c) => (module_child_lookup db parent_module src, c)
  | none =>
    match to_module_def db src.fileId.original_file with
    | none => (none, cache)
    | some m => (module_child_lookup db m.id src, cache)
termination_by 4 * posMeasure src + 1
decreasing_by
  all_goals first
    | (have hlt := nextWithMacros_lt _ _ h; omega)
    | (have hlt := firstModuleDecl_lt _ _ h; omega)
    | omega

end

/-- The result of SourceBinder::analyze, by construction: either a
body-scoped analyzer (SourceAnalyzer::new_for_body, which receives the
body-owning definition and the offset) or a resolver-based analyzer
(SourceAnalyzer::new_for_resolver); the analyzer internals are outside
the binder. -/
inductive SourceAnalyzer where
  | new_for_body (d : DefWithBodyId) (src : InFile SyntaxNode) (offset : Option Nat)
  | new_for_resolver (r : Resolver) (src : InFile SyntaxNode)
deriving DecidableEq, Repr

/-- SourceBinder::analyze (lines 33-56): find the container; a body-owning
container yields a body-scoped analyzer honouring the offset; any other
container yields a resolver-based analyzer from the container's own
resolver, the offset ignored; no container yields the default resolver. -/
def analyze (db : HirDatabase) (src : InFile SyntaxNode) (offset : Option Nat)
    (cache : Cache) : SourceAnalyzer × Cache :=
  match find_container db src cache with
  | (none, c) => (SourceAnalyzer.new_for_resolver Resolver.default src, c)
  | (some container, c) =>
    match container with
    | ChildContainer.defWithBodyId d => (SourceAnalyzer.new_for_body d src offset, c)
    | ChildContainer.traitId it => (SourceAnalyzer.new_for_resolver (db.trait_resolver it) src, c)
    | ChildContainer.implId it => (SourceAnalyzer.new_for_resolver (db.impl_resolver it) src, c)
    | ChildContainer.moduleId it => (SourceAnalyzer.new_for_resolver (db.module_resolver it) src, c)
    | ChildContainer.enumId it => (SourceAnalyzer.new_for_resolver (db.enum_resolver it) src, c)
    | ChildContainer.variantId it => (SourceAnalyzer.new_for_resolver (db.variant_resolver it) src, c)
    | ChildContainer.genericDefId it => (SourceAnalyzer.new_for_resolver (db.generic_def_resolver it) src, c)

/-- impl ToId for ast::MacroCall (lines 255-270): every macro-call node in
a file whose original file resolves to a module yields a MacroDefId with
the declarative kind, the crate of that module, and the stable ast id the
per-file AST id map assigns to the call node. -/
def to_id_macro_call (db : HirDatabase) (src : InFile SyntaxNode) (cache : Cache) :
    Option MacroDefId × Cache :=
  match to_module_def db src.fileId.original_file with
  | none => (none, cache)
  | some m =>
    (some ⟨some m.id.krate,
           some ⟨src.fileId, db.ast_id_map src.fileId src.value⟩,
           MacroDefKind.declarative⟩,
     cache)

/-- The find_map of ast::BindPat::to_def (lines 277-287) over the plain
lexical ancestors: the first const/static/fn ancestor whose to_id
succeeds; a failing to_id makes the closure yield none and the walk
continue outward (the question mark is inside the closure). -/
def bind_pat_parent (db : HirDatabase) (file_id : HirFileId) :
    List SyntaxNode → Cache → Option DefWithBodyId × Cache
  | [], cache => (none, cache)
  | n :: rest, cache =>
    match n.kind with
    | SyntaxKind.constDef =>
      match to_id_by_key db ChildKind.const ⟨file_id, n⟩ cache with
      | (some it, c) => (some (DefWithBodyId.constId it), c)
      | (none, c) => bind_pat_parent db file_id rest c
    | SyntaxKind.staticDef =>
      match to_id_by_key db ChildKind.static ⟨file_id, n⟩ cache with
      | (some it, c) => (some (DefWithBodyId.staticId it), c)
      | (none, c) => bind_pat_parent db file_id rest c
    | SyntaxKind.fnDef =>
      match to_id_by_key db ChildKind.function ⟨file_id, n⟩ cache with
      | (some it, c) => (some (DefWithBodyId.functionId it), c)
      | (none, c) => bind_pat_parent db file_id rest c
    | _ => bind_pat_parent db file_id rest cache

/-- impl ToDef for ast::BindPat (lines 272-293): find the enclosing
body-owning definition among the plain lexical ancestors, ask the
database for that body's source map, and look the pattern's own location
up in it. -/
def to_def_bind_pat (db : HirDatabase) (src : InFile SyntaxNode) (cache : Cache) :
    Option Local × Cache :=
  match bind_pat_parent db src.fileId src.value.ancestors cache with
  | (none, c) => (none, c)
  | (some parent, c) =>
    match (db.body_with_source_map parent).2.node_pat ⟨src.fileId, src.value⟩ with
    | none => (none, c)
    | some pat_id => (some ⟨parent, pat_id⟩, c)

/-- The find_map of ast::TypeParam::to_def (lines 304-317) over the plain
lexical ancestors: the first fn/struct/enum/trait/type-alias/impl
ancestor whose to_id succeeds, as a GenericDefId; like the BindPat walk,
a failing to_id lets the walk continue outward. -/
def type_param_parent (db : HirDatabase) (file_id : HirFileId) :
    List SyntaxNode → Cache → Option GenericDefId × Cache
  | [], cache => (none, cache)
  | n :: rest, cache =>
    match n.kind with
    | SyntaxKind.fnDef =>
      match to_id_by_key db ChildKind.function ⟨file_id, n⟩ cache with
      | (some it, c) => (some (GenericDefId.functionId it), c)
      | (none, c) => type_param_parent db file_id rest c
    | SyntaxKind.structDef =>
      match to_id_by_key db ChildKind.struct ⟨file_id, n⟩ cache with
      | (some it, c) => (some (GenericDefId.structId it), c)
      | (none, c) => type_param_parent db file_id rest c
    | SyntaxKind.enumDef =>
      match to_id_by_key db ChildKind.enum ⟨file_id, n⟩ cache with
      | (some it, c) => (some (GenericDefId.enumId it), c)
      | (none, c) => type_param_parent db file_id rest c
    | SyntaxKind.traitDef =>
      match to_id_by_key db ChildKind.trait ⟨file_id, n⟩ cache with
      | (some it, c) => (some (GenericDefId.traitId it), c)
      | (none, c) => type_param_parent db file_id rest c
    | SyntaxKind.typeAliasDef =>
      match to_id_by_key db ChildKind.typeAlias ⟨file_id, n⟩ cache with
      | (some it, c) => (some (GenericDefId.typeAliasId it), c)
      | (none, c) => type_param_parent db file_id rest c
    | SyntaxKind.implBlock =>
      match to_id_by_key db ChildKind.impl ⟨file_id, n⟩ cache with
      | (some it, c) => (some (GenericDefId.implId it), c)
      | (none, c) => type_param_parent db file_id rest c
    | _ => type_param_parent db file_id rest cache

/-- impl ToDef for ast::TypeParam (lines 295-321): line 302 constructs a
fresh SourceBinder sharing only the database, so all lookups here run
against a fresh empty cache and the caller's cache is left untouched. -/
def to_def_type_param (db : HirDatabase) (src : InFile SyntaxNode) (cache : Cache) :
    Option TypeParam × Cache :=
  let fresh : Cache := []
  match type_param_parent db src.fileId src.value.ancestors fresh with
  | (none, _) => (none, cache)
  | (some parent, c) =>
    match child_by_source db c (ChildContainer.genericDefId parent) with
    | (dyn_map, _, _) =>
      ((dyn_map.get ChildKind.typeParam src).map (fun i => ⟨i⟩), cache)

/-! ### The walk characterization of find_container -/

theorem find_container_loop_walk :
    ∀ (n : Nat) (db : HirDatabase) (orig : FileId) (cur : InFile SyntaxNode) (cache : Cache),
      posMeasure cur ≤ n →
      find_container_loop db orig cur cache =
        (match (ancestors_with_macros cur).find? (fun x => isContainerKind x.value.kind) with
         | some a => resolve_container db a cache
         | none => ((to_module_def db orig).map (fun m => ChildContainer.moduleId m.id), cache)) := by
  intro n
  induction n with
  | zero =>
    intro db orig cur cache hle
    rw [find_container_loop, ancestors_with_macros]
    cases hk : isContainerKind cur.value.kind
    · rcases hnext : nextWithMacros cur with _ | p
      · simp [hk, hnext, List.find?_cons_of_neg]
      · exact absurd (Nat.lt_of_lt_of_le (nextWithMacros_lt _ _ hnext) hle)
          (Nat.not_lt_zero _)
    · simp [hk, List.find?_cons_of_pos]
  | succ n ih =>
    intro db orig cur cache hle
    rw [find_container_loop, ancestors_with_macros]
    cases hk : isContainerKind cur.value.kind
    · rcases hnext : nextWithMacros cur with _ | p
      · simp [hk, hnext, List.find?_cons_of_neg]
      · have hplt := nextWithMacros_lt _ _ hnext
        rw [List.find?_cons_of_neg _ (by simp [hk])]
        exact ih db orig p cache (by omega)
    · simp [hk, List.find?_cons_of_pos]

/-- find_container examines exactly the macro-aware ancestors of the node
with the node itself dropped, in innermost-to-outermost order: its result
is determined by the first container-defining ancestor, and by the root
module of the original file when there is none. -/
theorem find_container_walk (db : HirDatabase) (src : InFile SyntaxNode) (cache : Cache) :
    find_container db src cache =
      (match ((ancestors_with_macros src).drop 1).find?
          (fun x => isContainerKind x.value.kind) with
       | some a => resolve_container db a cache
       | none =>
         ((to_module_def db src.fileId.original_file).map
           (fun m => ChildContainer.moduleId m.id), cache)) := by
  rw [find_container, ancestors_with_macros]
  rcases hnext : nextWithMacros src with _ | p
  · simp [hnext]
  · simp only [List.drop_succ_cons, List.drop_zero]
    exact find_container_loop_walk (posMeasure p) db src.fileId.original_file p cache
      (Nat.le_refl _)

/-! ### Cache evolution across the binder operations -/

/-- Cache evolution: every entry of the first cache is still present, with
the same children index, in the second. -/
def cache_extends (c1 c2 : Cache) : Prop :=
  ∀ k m, cacheFind c1 k = some m → cacheFind c2 k = some m

/-- Cache well-formedness: every cached index is exactly what the external
children enumeration produces for its container. -/
def cache_wf (db : HirDatabase) (c : Cache) : Prop :=
  ∀ k m, cacheFind c k = some m → m = child_by_source_build db k

theorem cache_extends_refl (c : Cache) : cache_extends c c := fun _ _ h => h

theorem cache_extends_trans {c1 c2 c3 : Cache}
    (h12 : cache_extends c1 c2) (h23 : cache_extends c2 c3) : cache_extends c1 c3 :=
  fun k m h => h23 k m (h12 k m h)

theorem child_by_source_extends (db : HirDatabase) (cache : Cache) (k : ChildContainer) :
    cache_extends cache (child_by_source db cache k).2.1 := by
  rw [child_by_source]
  rcases hf : cacheFind cache k with _ | m
  · intro k' m' h'
    simp only [cacheFind]
    by_cases hk : k = k'
    · subst hk; rw [hf] at h'; exact absurd h' (by simp)
    · simp [hk, h']
  · exact cache_extends_refl _

theorem child_by_source_wf (db : HirDatabase) (cache : Cache) (k : ChildContainer)
    (hwf : cache_wf db cache) : cache_wf db (child_by_source db cache k).2.1 := by
  rw [child_by_source]
  rcases hf : cacheFind cache k with _ | m
  · intro k' m' h'
    simp only [cacheFind] at h'
    by_cases hk : k = k'
    · subst hk
      simp at h'
      exact h'.symm
    · rw [if_neg hk] at h'
      exact hwf k' m' h'
  · exact hwf

theorem child_by_source_map_of_wf (db : HirDatabase) (cache : Cache) (k : ChildContainer)
    (hwf : cache_wf db cache) :
    (child_by_source db cache k).1 = child_by_source_build db k := by
  rw [child_by_source]
  rcases hf : cacheFind cache k with _ | m
  · simp
  · exact hwf k m hf

theorem child_by_source_find_after (db : HirDatabase) (cache : Cache) (k : ChildContainer) :
    cacheFind (child_by_source db cache k).2.1 k = some (child_by_source db cache k).1 := by
  rw [child_by_source]
  rcases hf : cacheFind cache k with _ | m
  · simp [cacheFind]
  · simp [hf]

theorem resolve_arm_cache (db : HirDatabase) (cur : InFile SyntaxNode) (cache : Cache)
    (key : ChildKind) (f : Nat → ChildContainer)
    (hext : cache_extends cache (to_id_by_key db key cur cache).2)
    (hwf : cache_wf db cache → cache_wf db (to_id_by_key db key cur cache).2) :
    cache_extends cache
      ((match to_id_by_key db key cur cache with
        | (some it, c) => (some (f it), c)
        | (none, c) => ((none : Option ChildContainer), c)).2) ∧
    (cache_wf db cache → cache_wf db
      ((match to_id_by_key db key cur cache with
        | (some it, c) => (some (f it), c)
        | (none, c) => ((none : Option ChildContainer), c)).2)) := by
  rcases h1 : to_id_by_key db key cur cache with ⟨r, c⟩
  rw [h1] at hext hwf
  cases r
  · exact ⟨hext, hwf⟩
  · exact ⟨hext, hwf⟩

theorem cache_step_all : ∀ (n : Nat) (db : HirDatabase),
    (∀ src cache, posMeasure src ≤ n →
      cache_extends cache (find_container db src cache).2 ∧
      (cache_wf db cache → cache_wf db (find_container db src cache).2)) ∧
    (∀ orig cur cache, posMeasure cur ≤ n →
      cache_extends cache (find_container_loop db orig cur cache).2 ∧
      (cache_wf db cache → cache_wf db (find_container_loop db orig cur cache).2)) ∧
    (∀ cur cache, posMeasure cur ≤ n →
      cache_extends cache (resolve_container db cur cache).2 ∧
      (cache_wf db cache → cache_wf db (resolve_container db cur cache).2)) ∧
    (∀ key src cache, posMeasure src ≤ n →
      cache_extends cache (to_id_by_key db key src cache).2 ∧
      (cache_wf db cache → cache_wf db (to_id_by_key db key src cache).2)) ∧
    (∀ src cache, posMeasure src ≤ n → (to_id_module db src cache).2 = cache) := by
  intro n
  induction n using Nat.strong_induction_on with
  | _ n ih =>
  intro db
  have h_mod : ∀ src cache, posMeasure src ≤ n → (to_id_module db src cache).2 = cache := by
    intro src cache hmu
    rw [to_id_module]
    split
    · rename_i pd heq
      have hlt := firstModuleDecl_lt _ _ heq
      have hrec := (ih (posMeasure pd) (by omega) db).2.2.2.2 pd cache (Nat.le_refl _)
      rcases h1 : to_id_module db pd cache with ⟨r, c⟩
      rw [h1] at hrec
      cases r <;> exact hrec
    · split <;> rfl
  have h_fc : ∀ src cache, posMeasure src ≤ n →
      cache_extends cache (find_container db src cache).2 ∧
      (cache_wf db cache → cache_wf db (find_container db src cache).2) := by
    intro src cache hmu
    rw [find_container]
    split
    · rename_i p hnext
      have hplt := nextWithMacros_lt _ _ hnext
      exact (ih (posMeasure p) (by omega) db).2.1 src.fileId.original_file p cache
        (Nat.le_refl _)
    · exact ⟨cache_extends_refl _, fun h => h⟩
  have h_key : ∀ key src cache, posMeasure src ≤ n →
      cache_extends cache (to_id_by_key db key src cache).2 ∧
      (cache_wf db cache → cache_wf db (to_id_by_key db key src cache).2) := by
    intro key src cache hmu
    rw [to_id_by_key]
    rcases h1 : find_container db src cache with ⟨r, c⟩
    have hfc := h_fc src cache hmu
    rw [h1] at hfc
    cases r with
    | none => exact hfc
    | some container =>
      rcases h2 : child_by_source db c container with ⟨m2, c2, b2⟩
      have hx := child_by_source_extends db c container
      have hw := fun hwc => child_by_source_wf db c container hwc
      rw [h2] at hx hw
      show cache_extends cache
          ((match child_by_source db c container with
            | (dyn_map, c2, _) => (dyn_map.get key src, c2)).2) ∧
        (cache_wf db cache → cache_wf db
          ((match child_by_source db c container with
            | (dyn_map, c2, _) => (dyn_map.get key src, c2)).2))
      rw [h2]
      exact ⟨cache_extends_trans hfc.1 hx, fun hwc => hw (hfc.2 hwc)⟩
  have h_rc : ∀ cur cache, posMeasure cur ≤ n →
      cache_extends cache (resolve_container db cur cache).2 ∧
      (cache_wf db cache → cache_wf db (resolve_container db cur cache).2) := by
    intro cur cache hmu
    rw [resolve_container]
    cases hk : cur.value.kind
    case traitDef =>
      exact resolve_arm_cache db cur cache ChildKind.trait (fun it => ChildContainer.traitId it)
        (h_key ChildKind.trait cur cache hmu).1 (h_key ChildKind.trait cur cache hmu).2
    case implBlock =>
      exact resolve_arm_cache db cur cache ChildKind.impl (fun it => ChildContainer.implId it)
        (h_key ChildKind.impl cur cache hmu).1 (h_key ChildKind.impl cur cache hmu).2
    case fnDef =>
      exact resolve_arm_cache db cur cache ChildKind.function
        (fun it => ChildContainer.defWithBodyId (DefWithBodyId.functionId it))
        (h_key ChildKind.function cur cache hmu).1 (h_key ChildKind.function cur cache hmu).2
    case staticDef =>
      exact resolve_arm_cache db cur cache ChildKind.static
        (fun it => ChildContainer.defWithBodyId (DefWithBodyId.staticId it))
        (h_key ChildKind.static cur cache hmu).1 (h_key ChildKind.static cur cache hmu).2
    case constDef =>
      exact resolve_arm_cache db cur cache ChildKind.const
        (fun it => ChildContainer.defWithBodyId (DefWithBodyId.constId it))
        (h_key ChildKind.const cur cache hmu).1 (h_key ChildKind.const cur cache hmu).2
    case enumDef =>
      exact resolve_arm_cache db cur cache ChildKind.enum (fun it => ChildContainer.enumId it)
        (h_key ChildKind.enum cur cache hmu).1 (h_key ChildKind.enum cur cache hmu).2
    case structDef =>
      exact resolve_arm_cache db cur cache ChildKind.struct
        (fun it => ChildContainer.variantId (VariantId.structId it))
        (h_key ChildKind.struct cur cache hmu).1 (h_key ChildKind.struct cur cache hmu).2
    case unionDef =>
      exact resolve_arm_cache db cur cache ChildKind.union
        (fun it => ChildContainer.variantId (VariantId.unionId it))
        (h_key ChildKind.union cur cache hmu).1 (h_key ChildKind.union cur cache hmu).2
    case module =>
      rcases h1 : to_id_module db cur cache with ⟨r, c⟩
      have hrec := h_mod cur cache hmu
      rw [h1] at hrec
      cases r
      · exact hrec ▸ ⟨cache_extends_refl _, fun h => h⟩
      · exact hrec ▸ ⟨cache_extends_refl _, fun h => h⟩
    case typeAliasDef => exact ⟨cache_extends_refl _, fun h => h⟩
    case bindPat => exact ⟨cache_extends_refl _, fun h => h⟩
    case typeParam => exact ⟨cache_extends_refl _, fun h => h⟩
    case macroCall => exact ⟨cache_extends_refl _, fun h => h⟩
    case other => exact ⟨cache_extends_refl _, fun h => h⟩
  have h_loop : ∀ orig cur cache, posMeasure cur ≤ n →
      cache_extends cache (find_container_loop db orig cur cache).2 ∧
      (cache_wf db cache → cache_wf db (find_container_loop db orig cur cache).2) := by
    intro orig cur cache hmu
    rw [find_container_loop]
    split
    · exact h_rc cur cache hmu
    · split
      · rename_i p hnext
        have hplt := nextWithMacros_lt _ _ hnext
        exact (ih (posMeasure p) (by omega) db).2.1 orig p cache (Nat.le_refl _)
      · exact ⟨cache_extends_refl _, fun h => h⟩
  exact ⟨h_fc, h_loop, h_rc, h_key, h_mod⟩

/-! ### Corollaries of the cache induction -/

theorem find_container_extends (db : HirDatabase) (src : InFile SyntaxNode) (cache : Cache) :
    cache_extends cache (find_container db src cache).2 :=
  ((cache_step_all (posMeasure src) db).1 src cache (Nat.le_refl _)).1

theorem find_container_wf (db : HirDatabase) (src : InFile SyntaxNode) (cache : Cache)
    (h : cache_wf db cache) : cache_wf db (find_container db src cache).2 :=
  ((cache_step_all (posMeasure src) db).1 src cache (Nat.le_refl _)).2 h

theorem to_id_by_key_extends (db : HirDatabase) (key : ChildKind) (src : InFile SyntaxNode)
    (cache : Cache) : cache_extends cache (to_id_by_key db key src cache).2 :=
  ((cache_step_all (posMeasure src) db).2.2.2.1 key src cache (Nat.le_refl _)).1

theorem to_id_by_key_wf (db : HirDatabase) (key : ChildKind) (src : InFile SyntaxNode)
    (cache : Cache) (h : cache_wf db cache) :
    cache_wf db (to_id_by_key db key src cache).2 :=
  ((cache_step_all (posMeasure src) db).2.2.2.1 key src cache (Nat.le_refl _)).2 h

theorem to_id_module_cache (db : HirDatabase) (src : InFile SyntaxNode) (cache : Cache) :
    (to_id_module db src cache).2 = cache :=
  (cache_step_all (posMeasure src) db).2.2.2.2 src cache (Nat.le_refl _)

/-! ### C1: innermost container wins -/

/-- C1.  find_container walks the lexical ancestors starting from the
node's immediate parent, innermost to outermost, and its result is the
container resolved from the first container-defining ancestor: whenever
the dropped-self ancestor chain splits as pre ++ a :: post with no
container-defining kind in pre and a of container-defining kind, the
result is exactly the resolution of a — so a node nested inside container
A nested inside container B always resolves to A, never B. -/
theorem c1_find_container_innermost (db : HirDatabase) (src : InFile SyntaxNode)
    (cache : Cache) (pre post : List (InFile SyntaxNode)) (a : InFile SyntaxNode)
    (hsplit : (ancestors_with_macros src).drop 1 = pre ++ a :: post)
    (hpre : ∀ x ∈ pre, isContainerKind x.value.kind = false)
    (ha : isContainerKind a.value.kind = true) :
    find_container db src cache = resolve_container db a cache := by
  rw [find_container_walk, hsplit]
  have hfind : (pre ++ a :: post).find? (fun x => isContainerKind x.value.kind) = some a := by
    rw [List.find?_append]
    have hnone : pre.find? (fun x => isContainerKind x.value.kind) = none := by
      rw [List.find?_eq_none]
      intro x hx
      simp [hpre x hx]
    rw [hnone]
    simp [List.find?_cons_of_pos, ha]
  rw [hfind]

/-! ### C2: analyze dispatch -/

/-- C2.  analyze builds a body-scoped analyzer (receiving the offset) when
the container is a body-owning definition, a resolver-based analyzer from
the container's own resolver (the offset ignored) for every other
container kind, and the default resolver when no container is found. -/
theorem c2_analyze_dispatch (db : HirDatabase) (src : InFile SyntaxNode)
    (offset : Option Nat) (cache : Cache) :
    (∀ d c, find_container db src cache = (some (ChildContainer.defWithBodyId d), c) →
      analyze db src offset cache = (SourceAnalyzer.new_for_body d src offset, c)) ∧
    (∀ it c, find_container db src cache = (some (ChildContainer.traitId it), c) →
      analyze db src offset cache =
        (SourceAnalyzer.new_for_resolver (db.trait_resolver it) src, c)) ∧
    (∀ it c, find_container db src cache = (some (ChildContainer.implId it), c) →
      analyze db src offset cache =
        (SourceAnalyzer.new_for_resolver (db.impl_resolver it) src, c)) ∧
    (∀ it c, find_container db src cache = (some (ChildContainer.moduleId it), c) →
      analyze db src offset cache =
        (SourceAnalyzer.new_for_resolver (db.module_resolver it) src, c)) ∧
    (∀ it c, find_container db src cache = (some (ChildContainer.enumId it), c) →
      analyze db src offset cache =
        (SourceAnalyzer.new_for_resolver (db.enum_resolver it) src, c)) ∧
    (∀ it c, find_container db src cache = (some (ChildContainer.variantId it), c) →
      analyze db src offset cache =
        (SourceAnalyzer.new_for_resolver (db.variant_resolver it) src, c)) ∧
    (∀ it c, find_container db src cache = (some (ChildContainer.genericDefId it), c) →
      analyze db src offset cache =
        (SourceAnalyzer.new_for_resolver (db.generic_def_resolver it) src, c)) ∧
    (∀ c, find_container db src cache = (none, c) →
      analyze db src offset cache =
        (SourceAnalyzer.new_for_resolver Resolver.default src, c)) := by
  refine ⟨?_, ?_, ?_, ?_, ?_, ?_, ?_, ?_⟩ <;>
    first
      | (intro it c h; rw [analyze, h])
      | (intro c h; rw [analyze, h])

/-! ### C7: container facets -/

/-- Whether a find_container result is the generic-parameter facet. -/
def isGenericFacet : Option ChildContainer → Bool
  | some (ChildContainer.genericDefId _) => true
  | _ => false

theorem resolve_container_not_generic (db : HirDatabase) (cur : InFile SyntaxNode)
    (cache : Cache) : isGenericFacet (resolve_container db cur cache).1 = false := by
  rw [resolve_container]
  cases hk : cur.value.kind
  case traitDef =>
    rcases h : to_id_by_key db ChildKind.trait cur cache with ⟨r, c⟩
    cases r <;> rfl
  case implBlock =>
    rcases h : to_id_by_key db ChildKind.impl cur cache with ⟨r, c⟩
    cases r <;> rfl
  case fnDef =>
    rcases h : to_id_by_key db ChildKind.function cur cache with ⟨r, c⟩
    cases r <;> rfl
  case staticDef =>
    rcases h : to_id_by_key db ChildKind.static cur cache with ⟨r, c⟩
    cases r <;> rfl
  case constDef =>
    rcases h : to_id_by_key db ChildKind.const cur cache with ⟨r, c⟩
    cases r <;> rfl
  case enumDef =>
    rcases h : to_id_by_key db ChildKind.enum cur cache with ⟨r, c⟩
    cases r <;> rfl
  case structDef =>
    rcases h : to_id_by_key db ChildKind.struct cur cache with ⟨r, c⟩
    cases r <;> rfl
  case unionDef =>
    rcases h : to_id_by_key db ChildKind.union cur cache with ⟨r, c⟩
    cases r <;> rfl
  case module =>
    rcases h : to_id_module db cur cache with ⟨r, c⟩
    cases r <;> rfl
  case typeAliasDef => rfl
  case bindPat => rfl
  case typeParam => rfl
  case macroCall => rfl
  case other => rfl

theorem resolve_container_struct (db : HirDatabase) (cur : InFile SyntaxNode) (cache : Cache)
    (hk : cur.value.kind = SyntaxKind.structDef) (r : ChildContainer) (c : Cache)
    (h : resolve_container db cur cache = (some r, c)) :
    ∃ i, r = ChildContainer.variantId (VariantId.structId i) := by
  rw [resolve_container, hk] at h
  rcases h1 : to_id_by_key db ChildKind.struct cur cache with ⟨r1, c1⟩
  rw [h1] at h
  cases r1 with
  | none => exact absurd h (by simp)
  | some i =>
    refine ⟨i, ?_⟩
    have := congrArg Prod.fst h
    simpa using this.symm

theorem resolve_container_union (db : HirDatabase) (cur : InFile SyntaxNode) (cache : Cache)
    (hk : cur.value.kind = SyntaxKind.unionDef) (r : ChildContainer) (c : Cache)
    (h : resolve_container db cur cache = (some r, c)) :
    ∃ i, r = ChildContainer.variantId (VariantId.unionId i) := by
  rw [resolve_container, hk] at h
  rcases h1 : to_id_by_key db ChildKind.union cur cache with ⟨r1, c1⟩
  rw [h1] at h
  cases r1 with
  | none => exact absurd h (by simp)
  | some i =>
    refine ⟨i, ?_⟩
    have := congrArg Prod.fst h
    simpa using this.symm

theorem resolve_container_enum (db : HirDatabase) (cur : InFile SyntaxNode) (cache : Cache)
    (hk : cur.value.kind = SyntaxKind.enumDef) (r : ChildContainer) (c : Cache)
    (h : resolve_container db cur cache = (some r, c)) :
    ∃ i, r = ChildContainer.enumId i := by
  rw [resolve_container, hk] at h
  rcases h1 : to_id_by_key db ChildKind.enum cur cache with ⟨r1, c1⟩
  rw [h1] at h
  cases r1 with
  | none => exact absurd h (by simp)
  | some i =>
    refine ⟨i, ?_⟩
    have := congrArg Prod.fst h
    simpa using this.symm

/-- C7.  find_container never produces the generic-parameter facet, and
when its first matching ancestor is a struct, union or enum definition the
result is the corresponding variant/record or enum facet. -/
theorem c7_facets (db : HirDatabase) (src : InFile SyntaxNode) (cache : Cache) :
    isGenericFacet (find_container db src cache).1 = false ∧
    (∀ a r c,
      ((ancestors_with_macros src).drop 1).find? (fun x => isContainerKind x.value.kind) =
        some a →
      find_container db src cache = (some r, c) →
      (a.value.kind = SyntaxKind.structDef →
        ∃ i, r = ChildContainer.variantId (VariantId.structId i)) ∧
      (a.value.kind = SyntaxKind.unionDef →
        ∃ i, r = ChildContainer.variantId (VariantId.unionId i)) ∧
      (a.value.kind = SyntaxKind.enumDef → ∃ i, r = ChildContainer.enumId i)) := by
  constructor
  · rw [find_container_walk]
    rcases hf : ((ancestors_with_macros src).drop 1).find?
        (fun x => isContainerKind x.value.kind) with _ | a
    · rw [hf]
      rcases hm : to_module_def db src.fileId.original_file with _ | m <;>
        simp [hm, isGenericFacet]
    · rw [hf]
      exact resolve_container_not_generic db a cache
  · intro a r c hf hfc
    rw [find_container_walk, hf] at hfc
    exact ⟨fun hk => resolve_container_struct db a cache hk r c hfc,
           fun hk => resolve_container_union db a cache hk r c hfc,
           fun hk => resolve_container_enum db a cache hk r c hfc⟩

/-! ### C3: when find_container returns nothing -/

/-- C3 (amended).  find_container returns nothing only when either no
ancestor has a container-defining kind and the original file resolves to
no module, or the innermost container-defining ancestor itself fails to
resolve to a semantic id; and whenever no ancestor matches and the file
does resolve to a root module, the result is exactly that root module. -/
theorem c3_absence (db : HirDatabase) (src : InFile SyntaxNode) (cache : Cache) :
    ((find_container db src cache).1 = none →
      (((ancestors_with_macros src).drop 1).find? (fun x => isContainerKind x.value.kind) =
          none ∧
        to_module_def db src.fileId.original_file = none) ∨
      (∃ a, ((ancestors_with_macros src).drop 1).find?
          (fun x => isContainerKind x.value.kind) = some a ∧
        (resolve_container db a cache).1 = none)) ∧
    (∀ m, ((ancestors_with_macros src).drop 1).find? (fun x => isContainerKind x.value.kind) =
        none →
      to_module_def db src.fileId.original_file = some m →
      find_container db src cache = (some (ChildContainer.moduleId m.id), cache)) := by
  constructor
  · intro hnone
    rw [find_container_walk] at hnone
    rcases hf : ((ancestors_with_macros src).drop 1).find?
        (fun x => isContainerKind x.value.kind) with _ | a
    · rw [hf] at hnone
      rcases hm : to_module_def db src.fileId.original_file with _ | m
      · exact Or.inl ⟨hf, rfl⟩
      · rw [hm] at hnone
        exact absurd hnone (by simp)
    · rw [hf] at hnone
      exact Or.inr ⟨a, hf, hnone⟩
  · intro m hf hm
    rw [find_container_walk, hf, hm]
    rfl

/-! ### C5: module resolution -/

theorem to_id_module_eq (db : HirDatabase) (src : InFile SyntaxNode) (cache : Cache) :
    to_id_module db src cache =
      (match firstModuleDecl src with
       | some pd =>
         (match to_id_module db pd cache with
          | (none, c) => (none, c)
          | (some pm, c) => (module_child_lookup db pm src, c))
       | none =>
         (match to_module_def db src.fileId.original_file with
          | none => (none, cache)
          | some m => (module_child_lookup db m.id src, cache))) := by
  rw [to_id_module]
  split
  · rename_i pd heq
    rw [heq]
  · rename_i heq
    rw [heq]

theorem to_id_module_some_parent (db : HirDatabase) (src : InFile SyntaxNode)
    (cache : Cache) (pd : InFile SyntaxNode) (hfm : firstModuleDecl src = some pd) :
    to_id_module db src cache =
      (match to_id_module db pd cache with
       | (none, c) => (none, c)
       | (some pm, c) => (module_child_lookup db pm src, c)) := by
  rw [to_id_module_eq, hfm]

theorem to_id_module_no_parent (db : HirDatabase) (src : InFile SyntaxNode)
    (cache : Cache) (hfm : firstModuleDecl src = none) :
    to_id_module db src cache =
      (match to_module_def db src.fileId.original_file with
       | none => (none, cache)
       | some m => (module_child_lookup db m.id src, cache)) := by
  rw [to_id_module_eq, hfm]

/-- C5.  ast::Module to_id resolves the nearest module-declaration
ancestor (node itself skipped, macro-aware) to the parent module, falling
back to the root module of the original file, and then looks the
declaration's own name up, by exact equality, in the parent's
child-module table; an unnamed declaration, a missing table entry, or a
failing parent resolution each yield absence. -/
theorem c5_module_resolution (db : HirDatabase) (src : InFile SyntaxNode) (cache : Cache) :
    (src.value.name = none → (to_id_module db src cache).1 = none) ∧
    (∀ pd P N, firstModuleDecl src = some pd →
      (to_id_module db pd cache).1 = some P →
      src.value.name = some N →
      (to_id_module db src cache).1 =
        (assocLookup ((db.crate_def_map P.krate).modules P.local_id).children N).map
          (fun cid => ModuleId.mk P.krate cid)) ∧
    (∀ m N, firstModuleDecl src = none →
      to_module_def db src.fileId.original_file = some m →
      src.value.name = some N →
      (to_id_module db src cache).1 =
        (assocLookup ((db.crate_def_map m.id.krate).modules m.id.local_id).children N).map
          (fun cid => ModuleId.mk m.id.krate cid)) ∧
    (∀ pd, firstModuleDecl src = some pd → (to_id_module db pd cache).1 = none →
      (to_id_module db src cache).1 = none) ∧
    (firstModuleDecl src = none → to_module_def db src.fileId.original_file = none →
      (to_id_module db src cache).1 = none) := by
  refine ⟨?_, ?_, ?_, ?_, ?_⟩
  · intro hname
    rcases hfm : firstModuleDecl src with _ | pd
    · rw [to_id_module_no_parent db src cache hfm]
      rcases hm : to_module_def db src.fileId.original_file with _ | m
      · rfl
      · simp [module_child_lookup, hname]
    · rw [to_id_module_some_parent db src cache pd hfm]
      rcases h1 : to_id_module db pd cache with ⟨r, c⟩
      cases r
      · rfl
      · simp [module_child_lookup, hname]
  · intro pd P N hfm hP hname
    rw [to_id_module_some_parent db src cache pd hfm]
    rcases h1 : to_id_module db pd cache with ⟨r, c⟩
    try rw [h1] at hP
    cases r with
    | none => exact absurd hP (by simp)
    | some pm =>
      have hpm : pm = P := by simpa using hP
      subst hpm
      show (module_child_lookup db pm src, c).1 = _
      simp only [module_child_lookup, hname]
      rcases hl : assocLookup ((db.crate_def_map pm.krate).modules pm.local_id).children N
          with _ | cid <;> simp [hl]
  · intro m N hfm hm hname
    rw [to_id_module_no_parent db src cache hfm, hm]
    show (module_child_lookup db m.id src, cache).1 = _
    simp only [module_child_lookup, hname]
    rcases hl : assocLookup ((db.crate_def_map m.id.krate).modules m.id.local_id).children N
        with _ | cid <;> simp [hl]
  · intro pd hfm hP
    rw [to_id_module_some_parent db src cache pd hfm]
    rcases h1 : to_id_module db pd cache with ⟨r, c⟩
    try rw [h1] at hP
    cases r
    · rfl
    · exact absurd hP (by simp)
  · intro hfm hm
    rw [to_id_module_no_parent db src cache hfm, hm]

/-! ### C6: local-binding resolution -/

/-- The body-owning syntactic kinds tested by ast::BindPat::to_def. -/
def isBodyOwnerKind : SyntaxKind → Bool
  | SyntaxKind.constDef => true
  | SyntaxKind.staticDef => true
  | SyntaxKind.fnDef => true
  | _ => false

/-- The children-index key each body-owning kind resolves through. -/
def bodyOwnerKey : SyntaxKind → Option ChildKind
  | SyntaxKind.constDef => some ChildKind.const
  | SyntaxKind.staticDef => some ChildKind.static
  | SyntaxKind.fnDef => some ChildKind.function
  | _ => none

/-- The DefWithBodyId variant each body-owning kind produces. -/
def bodyOwnerWrap : SyntaxKind → Nat → Option DefWithBodyId
  | SyntaxKind.constDef, i => some (DefWithBodyId.constId i)
  | SyntaxKind.staticDef, i => some (DefWithBodyId.staticId i)
  | SyntaxKind.fnDef, i => some (DefWithBodyId.functionId i)
  | _, _ => none

theorem bind_pat_parent_no_owner (db : HirDatabase) (fid : HirFileId) :
    ∀ (ns : List SyntaxNode) (cache : Cache),
      ns.find? (fun x => isBodyOwnerKind x.kind) = none →
      bind_pat_parent db fid ns cache = (none, cache) := by
  intro ns
  induction ns with
  | nil => intro cache hf; rfl
  | cons n rest ih =>
    intro cache hf
    have hhead : isBodyOwnerKind n.kind = false := by
      have := List.find?_eq_none.mp hf n (by simp)
      simpa using this
    have htail : rest.find? (fun x => isBodyOwnerKind x.kind) = none := by
      rw [List.find?_eq_none] at hf ⊢
      intro x hx
      exact hf x (List.mem_cons_of_mem _ hx)
    simp only [bind_pat_parent]
    cases hk : n.kind
    case constDef => rw [hk] at hhead; simp [isBodyOwnerKind] at hhead
    case staticDef => rw [hk] at hhead; simp [isBodyOwnerKind] at hhead
    case fnDef => rw [hk] at hhead; simp [isBodyOwnerKind] at hhead
    all_goals exact ih cache htail

theorem bind_pat_parent_found (db : HirDatabase) (fid : HirFileId) :
    ∀ (ns : List SyntaxNode) (cache : Cache) (a : SyntaxNode) (key : ChildKind)
      (i : Nat) (c : Cache),
      ns.find? (fun x => isBodyOwnerKind x.kind) = some a →
      bodyOwnerKey a.kind = some key →
      to_id_by_key db key ⟨fid, a⟩ cache = (some i, c) →
      bind_pat_parent db fid ns cache = (bodyOwnerWrap a.kind i, c) := by
  intro ns
  induction ns with
  | nil => intro cache a key i c hf hk hcall; exact absurd hf (by simp)
  | cons n rest ih =>
    intro cache a key i c hf hk hcall
    simp only [bind_pat_parent]
    cases hknd : n.kind
    case constDef =>
      rw [List.find?_cons_of_pos _ (by simp [hknd, isBodyOwnerKind])] at hf
      have han : a = n := by simpa using hf.symm
      subst han
      rw [hknd] at hk
      have hkey : key = ChildKind.const := by
        simpa [bodyOwnerKey] using hk.symm
      subst hkey
      rw [hcall, hknd, bodyOwnerWrap]
    case staticDef =>
      rw [List.find?_cons_of_pos _ (by simp [hknd, isBodyOwnerKind])] at hf
      have han : a = n := by simpa using hf.symm
      subst han
      rw [hknd] at hk
      have hkey : key = ChildKind.static := by
        simpa [bodyOwnerKey] using hk.symm
      subst hkey
      rw [hcall, hknd, bodyOwnerWrap]
    case fnDef =>
      rw [List.find?_cons_of_pos _ (by simp [hknd, isBodyOwnerKind])] at hf
      have han : a = n := by simpa using hf.symm
      subst han
      rw [hknd] at hk
      have hkey : key = ChildKind.function := by
        simpa [bodyOwnerKey] using hk.symm
      subst hkey
      rw [hcall, hknd, bodyOwnerWrap]
    all_goals {
      rw [List.find?_cons_of_neg _ (by simp [hknd, isBodyOwnerKind])] at hf
      exact ih cache a key i c hf hk hcall
    }

/-- C6.  ast::BindPat to_def yields a Local whose parent is the semantic
id of the nearest enclosing const/static/fn ancestor and whose pattern id
is the body-to-source-map entry for the pattern's own location; with no
body-owning ancestor, or no source-map entry, it yields absence. -/
theorem c6_bind_pat_local (db : HirDatabase) (src : InFile SyntaxNode) (cache : Cache) :
    ((src.value.ancestors).find? (fun x => isBodyOwnerKind x.kind) = none →
      to_def_bind_pat db src cache = (none, cache)) ∧
    (∀ a key i c P,
      (src.value.ancestors).find? (fun x => isBodyOwnerKind x.kind) = some a →
      bodyOwnerKey a.kind = some key →
      to_id_by_key db key ⟨src.fileId, a⟩ cache = (some i, c) →
      bodyOwnerWrap a.kind i = some P →
      (∀ pid,
        (db.body_with_source_map P).2.node_pat ⟨src.fileId, src.value⟩ = some pid →
        to_def_bind_pat db src cache = (some ⟨P, pid⟩, c)) ∧
      ((db.body_with_source_map P).2.node_pat ⟨src.fileId, src.value⟩ = none →
        to_def_bind_pat db src cache = (none, c))) := by
  constructor
  · intro hf
    rw [to_def_bind_pat, bind_pat_parent_no_owner db src.fileId _ _ hf]
  · intro a key i c P hf hk hcall hwrap
    have hwalk := bind_pat_parent_found db src.fileId _ cache a key i c hf hk hcall
    rw [hwrap] at hwalk
    constructor
    · intro pid hpat
      rw [to_def_bind_pat, hwalk]
      show (match (db.body_with_source_map P).2.node_pat ⟨src.fileId, src.value⟩ with
            | none => ((none : Option Local), c)
            | some pat_id => (some ⟨P, pat_id⟩, c)) = _
      rw [hpat]
    · intro hpat
      rw [to_def_bind_pat, hwalk]
      show (match (db.body_with_source_map P).2.node_pat ⟨src.fileId, src.value⟩ with
            | none => ((none : Option Local), c)
            | some pat_id => (some ⟨P, pat_id⟩, c)) = _
      rw [hpat]

/-! ### C8: the TypeParam path runs in a fresh session -/

/-- C8.  ast::TypeParam to_def constructs a fresh binder session sharing
only the database: the caller's cache is returned untouched, and the
result does not depend on the caller's cache in any way. -/
theorem c8_type_param_fresh_session (db : HirDatabase) (src : InFile SyntaxNode)
    (cache : Cache) :
    (to_def_type_param db src cache).2 = cache ∧
    (∀ cache2, (to_def_type_param db src cache).1 = (to_def_type_param db src cache2).1) := by
  constructor
  · simp only [to_def_type_param]
    rcases h : type_param_parent db src.fileId src.value.ancestors [] with ⟨r, c⟩
    cases r
    · rfl
    · rfl
  · intro cache2
    simp only [to_def_type_param]
    rcases h : type_param_parent db src.fileId src.value.ancestors [] with ⟨r, c⟩
    cases r
    · rfl
    · rfl

/-! ### C9: macro calls classified as declarative definitions of themselves -/

/-- C9.  Every macro-call node in a file whose original file resolves to a
module yields a MacroDefId carrying the declarative kind tag, the crate of
that module, and the stable per-file ast id of the call node. -/
theorem c9_macro_call_classification (db : HirDatabase) (src : InFile SyntaxNode)
    (cache : Cache) (m : Module)
    (h : to_module_def db src.fileId.original_file = some m) :
    to_id_macro_call db src cache =
      (some ⟨some m.id.krate,
             some ⟨src.fileId, db.ast_id_map src.fileId src.value⟩,
             MacroDefKind.declarative⟩,
       cache) := by
  rw [to_id_macro_call, h]

/-! ### C4: at most one children-index construction per container -/

/-- C4.  Within a session whose cache is well formed (as every session
starting from the empty cache is), a second child_by_source request for
the same container returns the identical index, leaves the cache
unchanged and does not run the external enumeration (flag false); the
index handed out is exactly the database's enumeration; and after any
further cache-extending operations a later request for the container
still returns that same content without running the enumeration. -/
theorem c4_children_index_cached (db : HirDatabase) (cache : Cache)
    (container : ChildContainer) (hwf : cache_wf db cache) :
    (child_by_source db (child_by_source db cache container).2.1 container =
      ((child_by_source db cache container).1,
       (child_by_source db cache container).2.1, false)) ∧
    (child_by_source db cache container).1 = child_by_source_build db container ∧
    (∀ cache2, cache_extends (child_by_source db cache container).2.1 cache2 →
      child_by_source db cache2 container =
        (child_by_source_build db container, cache2, false)) := by
  have hmap := child_by_source_map_of_wf db cache container hwf
  have hfind := child_by_source_find_after db cache container
  refine ⟨?_, hmap, ?_⟩
  · conv in child_by_source db (child_by_source db cache container).2.1 container =>
      rw [child_by_source]
    rw [hfind]
  · intro cache2 hext
    have h2 : cacheFind cache2 container = some (child_by_source db cache container).1 :=
      hext _ _ hfind
    rw [child_by_source, h2, hmap]

/-! ### C10: a failed keyed lookup still populates the cache -/

theorem bind_pat_parent_extends (db : HirDatabase) (fid : HirFileId) :
    ∀ (ns : List SyntaxNode) (cache : Cache),
      cache_extends cache (bind_pat_parent db fid ns cache).2 := by
  intro ns
  induction ns with
  | nil => intro cache; exact cache_extends_refl _
  | cons n rest ih =>
    intro cache
    simp only [bind_pat_parent]
    cases hk : n.kind
    case constDef =>
      rcases h1 : to_id_by_key db ChildKind.const ⟨fid, n⟩ cache with ⟨r, c⟩
      have hx := to_id_by_key_extends db ChildKind.const ⟨fid, n⟩ cache
      rw [h1] at hx
      cases r
      · exact cache_extends_trans hx (ih c)
      · exact hx
    case staticDef =>
      rcases h1 : to_id_by_key db ChildKind.static ⟨fid, n⟩ cache with ⟨r, c⟩
      have hx := to_id_by_key_extends db ChildKind.static ⟨fid, n⟩ cache
      rw [h1] at hx
      cases r
      · exact cache_extends_trans hx (ih c)
      · exact hx
    case fnDef =>
      rcases h1 : to_id_by_key db ChildKind.function ⟨fid, n⟩ cache with ⟨r, c⟩
      have hx := to_id_by_key_extends db ChildKind.function ⟨fid, n⟩ cache
      rw [h1] at hx
      cases r
      · exact cache_extends_trans hx (ih c)
      · exact hx
    all_goals exact ih cache

theorem to_def_bind_pat_extends (db : HirDatabase) (src : InFile SyntaxNode)
    (cache : Cache) : cache_extends cache (to_def_bind_pat db src cache).2 := by
  rw [to_def_bind_pat]
  rcases h1 : bind_pat_parent db src.fileId src.value.ancestors cache with ⟨r, c⟩
  have hx := bind_pat_parent_extends db src.fileId src.value.ancestors cache
  rw [h1] at hx
  cases r with
  | none => exact hx
  | some parent =>
    show cache_extends cache
      ((match (db.body_with_source_map parent).2.node_pat ⟨src.fileId, src.value⟩ with
        | none => ((none : Option Local), c)
        | some pat_id => (some ⟨parent, pat_id⟩, c)).2)
    cases h2 : (db.body_with_source_map parent).2.node_pat ⟨src.fileId, src.value⟩
    · exact hx
    · exact hx

theorem analyze_extends (db : HirDatabase) (src : InFile SyntaxNode) (offset : Option Nat)
    (cache : Cache) : cache_extends cache (analyze db src offset cache).2 := by
  rw [analyze]
  rcases h1 : find_container db src cache with ⟨r, c⟩
  have hx := find_container_extends db src cache
  rw [h1] at hx
  cases r with
  | none => exact hx
  | some container => cases container <;> exact hx

theorem to_id_macro_call_cache (db : HirDatabase) (src : InFile SyntaxNode)
    (cache : Cache) : (to_id_macro_call db src cache).2 = cache := by
  rw [to_id_macro_call]
  cases h : to_module_def db src.fileId.original_file
  · rfl
  · rfl

/-- C10.  A keyed to_id that finds a container C but no entry for the node
is not state-free: the session cache afterwards holds C's children index,
equal to the database's enumeration for C; and every binder operation only
ever inserts cache entries, never overwriting or removing existing ones. -/
theorem c10_absent_lookup_still_caches (db : HirDatabase) (key : ChildKind)
    (src : InFile SyntaxNode) (cache : Cache) (hwf : cache_wf db cache) :
    (∀ C c1 c2,
      find_container db src cache = (some C, c1) →
      to_id_by_key db key src cache = (none, c2) →
      cacheFind c2 C = some (child_by_source_build db C) ∧ cache_extends cache c2) ∧
    (∀ src2 cache2, cache_extends cache2 (find_container db src2 cache2).2) ∧
    (∀ key2 src2 cache2, cache_extends cache2 (to_id_by_key db key2 src2 cache2).2) ∧
    (∀ src2 cache2, (to_id_module db src2 cache2).2 = cache2) ∧
    (∀ src2 offset cache2, cache_extends cache2 (analyze db src2 offset cache2).2) ∧
    (∀ src2 cache2, cache_extends cache2 (to_def_bind_pat db src2 cache2).2) ∧
    (∀ src2 cache2, (to_def_type_param db src2 cache2).2 = cache2) ∧
    (∀ src2 cache2, (to_id_macro_call db src2 cache2).2 = cache2) := by
  refine ⟨?_, fun src2 cache2 => find_container_extends db src2 cache2,
    fun key2 src2 cache2 => to_id_by_key_extends db key2 src2 cache2,
    fun src2 cache2 => to_id_module_cache db src2 cache2,
    fun src2 offset cache2 => analyze_extends db src2 offset cache2,
    fun src2 cache2 => to_def_bind_pat_extends db src2 cache2,
    fun src2 cache2 => (c8_type_param_fresh_session db src2 cache2).1,
    fun src2 cache2 => to_id_macro_call_cache db src2 cache2⟩
  intro C c1 c2 h1 h2
  have hwf1 : cache_wf db c1 := by
    have := find_container_wf db src cache hwf
    rw [h1] at this
    exact this
  have hext1 : cache_extends cache c1 := by
    have := find_container_extends db src cache
    rw [h1] at this
    exact this
  rw [to_id_by_key, h1] at h2
  have h3 : (child_by_source db c1 C).2.1 = c2 := congrArg Prod.snd h2
  constructor
  · rw [← h3]
    rw [child_by_source_find_after db c1 C, child_by_source_map_of_wf db c1 C hwf1]
  · rw [← h3]
    exact cache_extends_trans hext1 (child_by_source_extends db c1 C)

/-! ### Concrete witness world -/

/-- The structural id the AST id map of the witness database assigns. -/
def nodeIdOf : SyntaxNode → Nat
  | SyntaxNode.root i _ _ => i
  | SyntaxNode.child i _ _ _ => i

def wRoot : SyntaxNode := SyntaxNode.root 0 SyntaxKind.other none
def wMod : SyntaxNode := SyntaxNode.child 1 SyntaxKind.module (some "a") wRoot
def wModB : SyntaxNode := SyntaxNode.child 2 SyntaxKind.module (some "b") wMod
def wFn : SyntaxNode := SyntaxNode.child 3 SyntaxKind.fnDef (some "f") wModB
def wBody : SyntaxNode := SyntaxNode.child 4 SyntaxKind.other none wFn
def wPat : SyntaxNode := SyntaxNode.child 5 SyntaxKind.bindPat (some "x") wBody
def wTrait : SyntaxNode := SyntaxNode.child 6 SyntaxKind.traitDef (some "T") wRoot
def wLeafT : SyntaxNode := SyntaxNode.child 7 SyntaxKind.other none wTrait
def wStruct : SyntaxNode := SyntaxNode.child 8 SyntaxKind.structDef (some "S") wRoot
def wLeafS : SyntaxNode := SyntaxNode.child 9 SyntaxKind.other none wStruct
def wCall : SyntaxNode := SyntaxNode.child 10 SyntaxKind.macroCall none wRoot
def wLeaf0 : SyntaxNode := SyntaxNode.child 11 SyntaxKind.other none wRoot
def wFile : HirFileId := HirFileId.file 0

/-- Children index of the witness root module: the struct S. -/
def wDynRoot : DynMap := ⟨[((ChildKind.struct, ⟨wFile, wStruct⟩), 40)]⟩

/-- Children index of the witness module b: the function f. -/
def wDynB : DynMap := ⟨[((ChildKind.function, ⟨wFile, wFn⟩), 30)]⟩

/-- A small concrete database: one crate, one file, root module 0 with
child module a (local id 1) holding child module b (local id 2); the
struct S is indexed in the root module, the function f in module b, and
f's body source map records the pattern x as pattern id 77.  The trait T
is deliberately absent from every children index. -/
def wdb : HirDatabase :=
  ⟨fun f => if f = 0 then [0] else [],
   fun _ =>
     ⟨fun f => if f = 0 then [0] else [],
      fun l => if l = 0 then ⟨[("a", 1)]⟩ else if l = 1 then ⟨[("b", 2)]⟩ else ⟨[]⟩⟩,
   fun _ => ⟨[]⟩,
   fun m => if m = ⟨0, 0⟩ then wDynRoot else if m = ⟨0, 2⟩ then wDynB else ⟨[]⟩,
   fun _ => ⟨[]⟩,
   fun _ => ⟨[]⟩,
   fun _ => ⟨[]⟩,
   fun _ => ⟨[]⟩,
   fun _ => ⟨[]⟩,
   fun d => if d = DefWithBodyId.functionId 30 then ((), ⟨[(⟨wFile, wPat⟩, 77)]⟩)
            else ((), ⟨[]⟩),
   fun _ n => nodeIdOf n,
   fun _ => ⟨[1]⟩,
   fun _ => ⟨[2]⟩,
   fun _ => ⟨[3]⟩,
   fun _ => ⟨[4]⟩,
   fun _ => ⟨[5]⟩,
   fun _ => ⟨[6]⟩⟩

def wCacheB : Cache := [(ChildContainer.moduleId ⟨0, 2⟩, wDynB)]
def wCacheRoot : Cache := [(ChildContainer.moduleId ⟨0, 0⟩, wDynRoot)]
def wCacheC10 : Cache :=
  [(ChildContainer.defWithBodyId (DefWithBodyId.functionId 30), ⟨[]⟩),
   (ChildContainer.moduleId ⟨0, 2⟩, wDynB)]

unseal ancestors_with_macros in
theorem c1_find_container_innermost_witness :
    find_container wdb ⟨wFile, wPat⟩ [] = resolve_container wdb ⟨wFile, wFn⟩ [] :=
  c1_find_container_innermost wdb ⟨wFile, wPat⟩ [] [⟨wFile, wBody⟩]
    [⟨wFile, wModB⟩, ⟨wFile, wMod⟩, ⟨wFile, wRoot⟩] ⟨wFile, wFn⟩
    (by decide) (by decide) (by decide)

unseal find_container find_container_loop resolve_container to_id_by_key to_id_module
  ancestors_with_macros in
theorem c2_analyze_dispatch_witness :
    analyze wdb ⟨wFile, wPat⟩ (some 5) [] =
      (SourceAnalyzer.new_for_body (DefWithBodyId.functionId 30) ⟨wFile, wPat⟩ (some 5),
       wCacheB) :=
  (c2_analyze_dispatch wdb ⟨wFile, wPat⟩ (some 5) []).1 (DefWithBodyId.functionId 30) wCacheB
    (by decide)

unseal find_container find_container_loop resolve_container to_id_by_key to_id_module
  ancestors_with_macros in
theorem c3_counterexample_trait_unresolved :
    (to_module_def wdb 0).isSome = true ∧
    (find_container wdb ⟨wFile, wLeafT⟩ []).1 = none := by
  exact ⟨by decide, by decide⟩

unseal ancestors_with_macros in
theorem c3_absence_witness :
    find_container wdb ⟨wFile, wLeaf0⟩ [] = (some (ChildContainer.moduleId ⟨0, 0⟩), []) :=
  (c3_absence wdb ⟨wFile, wLeaf0⟩ []).2 ⟨⟨0, 0⟩⟩ (by decide) (by decide)

theorem c4_children_index_cached_witness :
    child_by_source wdb (child_by_source wdb [] (ChildContainer.traitId 5)).2.1
        (ChildContainer.traitId 5) =
      ((child_by_source wdb [] (ChildContainer.traitId 5)).1,
       (child_by_source wdb [] (ChildContainer.traitId 5)).2.1, false) :=
  (c4_children_index_cached wdb [] (ChildContainer.traitId 5)
    (fun k m h => absurd h (by simp [cacheFind]))).1

unseal find_container find_container_loop resolve_container to_id_by_key to_id_module
  ancestors_with_macros in
theorem c5_module_resolution_witness :
    (to_id_module wdb ⟨wFile, wModB⟩ []).1 =
      (assocLookup ((wdb.crate_def_map 0).modules 1).children "b").map
        (fun cid => ModuleId.mk 0 cid) :=
  (c5_module_resolution wdb ⟨wFile, wModB⟩ []).2.1 ⟨wFile, wMod⟩ ⟨0, 1⟩ "b"
    (by decide) (by decide) (by decide)

unseal find_container find_container_loop resolve_container to_id_by_key to_id_module
  ancestors_with_macros in
theorem c6_bind_pat_local_witness :
    to_def_bind_pat wdb ⟨wFile, wPat⟩ [] =
      (some ⟨DefWithBodyId.functionId 30, 77⟩, wCacheB) :=
  (((c6_bind_pat_local wdb ⟨wFile, wPat⟩ []).2 wFn ChildKind.function 30 wCacheB
      (DefWithBodyId.functionId 30)
      (by decide) (by decide) (by decide) (by decide)).1) 77 (by decide)

unseal find_container find_container_loop resolve_container to_id_by_key to_id_module
  ancestors_with_macros in
theorem c7_facets_witness :
    isGenericFacet (find_container wdb ⟨wFile, wLeafS⟩ []).1 = false ∧
    (∃ i, ChildContainer.variantId (VariantId.structId 40) =
        ChildContainer.variantId (VariantId.structId i)) :=
  ⟨(c7_facets wdb ⟨wFile, wLeafS⟩ []).1,
   ((c7_facets wdb ⟨wFile, wLeafS⟩ []).2 ⟨wFile, wStruct⟩
      (ChildContainer.variantId (VariantId.structId 40)) wCacheRoot
      (by decide) (by decide)).1 (by decide)⟩

theorem c9_macro_call_classification_witness :
    to_id_macro_call wdb ⟨wFile, wCall⟩ [] =
      (some ⟨some 0, some ⟨wFile, 10⟩, MacroDefKind.declarative⟩, []) :=
  c9_macro_call_classification wdb ⟨wFile, wCall⟩ [] ⟨⟨0, 0⟩⟩ (by decide)

unseal find_container find_container_loop resolve_container to_id_by_key to_id_module
  ancestors_with_macros in
theorem c10_absent_lookup_still_caches_witness :
    cacheFind wCacheC10 (ChildContainer.defWithBodyId (DefWithBodyId.functionId 30)) =
      some (child_by_source_build wdb
        (ChildContainer.defWithBodyId (DefWithBodyId.functionId 30))) ∧
    cache_extends [] wCacheC10 :=
  (c10_absent_lookup_still_caches wdb ChildKind.const ⟨wFile, wPat⟩ []
    (fun k m h => absurd h (by simp [cacheFind]))).1
    (ChildContainer.defWithBodyId (DefWithBodyId.functionId 30)) wCacheB wCacheC10
    (by decide) (by decide)

end SourceBinderSpec
